import Mathlib

/-!
Verification of the influx CLI shell (cmd/influx/cli/cli.go):
identifier lexer, INSERT statement classifier, query scope rewriter,
error classification of query execution, and the response renderer.
Go strings are modelled as `List Char`; Go `nil` maps and slices are
`Option.none` so that the nil/non-nil distinction of `reflect.DeepEqual` is kept.
-/

namespace InfluxCli

/-- Go strings, modelled as lists of characters (ASCII inputs throughout). -/
abbrev GoStr := List Char

/-- ASCII lower-casing of one character (models the ASCII case of
the folding of `strings.EqualFold`). -/
def toLowerCh (c : Char) : Char :=
  if 'A' ≤ c ∧ c ≤ 'Z' then Char.ofNat (c.toNat + 32) else c

/-- Models `strings.EqualFold` restricted to ASCII: equal up to case. -/
def asciiEqualFold : GoStr → GoStr → Bool
  | [], [] => true
  | a :: as, b :: bs => (toLowerCh a == toLowerCh b) && asciiEqualFold as bs
  | _, _ => false

/-- Boolean list-prefix test (models the prefix test inside `strings.TrimPrefix`
and `strings.HasPrefix`). -/
def isPfxOf : GoStr → GoStr → Bool
  | [], _ => true
  | _ :: _, [] => false
  | a :: as, b :: bs => (a == b) && isPfxOf as bs

/-- Models Go `strings.TrimPrefix s p`: drop `p` when it is a prefix of `s`,
otherwise return `s` unchanged. -/
def trimPfx (s p : GoStr) : GoStr :=
  if isPfxOf p s then s.drop p.length else s

/-- Predicate: `rem` is a suffix of `s`; parsing never fabricates characters. -/
def SuffixOf (rem s : GoStr) : Prop := ∃ pre, s = pre ++ rem

/-- cli.go `isWhitespace`: space, tab, or newline. -/
def isWhitespace (ch : Char) : Bool := ch == ' ' || ch == '\t' || ch == '\n'

/-- cli.go `isLetter`. -/
def isLetter (ch : Char) : Bool := ('a' ≤ ch && ch ≤ 'z') || ('A' ≤ ch && ch ≤ 'Z')

/-- cli.go `isDigit`. -/
def isDigit (ch : Char) : Bool := '0' ≤ ch && ch ≤ '9'

/-- cli.go `isIdentFirstChar`: letter or underscore. -/
def isIdentFirstChar (ch : Char) : Bool := isLetter ch || ch == '_'

/-- cli.go `isNotIdentChar`: not a letter, digit, or underscore. -/
def isNotIdentChar (ch : Char) : Bool := !(isLetter ch || isDigit ch || ch == '_')

/-- One pass of Go `strings.FieldsFunc` where the separator decision may
thread a state through the rune sequence (the quoted-identifier scan of the CLI
relies on `FieldsFunc` calling its closure once per rune, left to right).
`acc` is the field being accumulated. -/
def fieldsFuncAux {σ : Type} (step : σ → Char → Bool × σ) :
    σ → GoStr → GoStr → List GoStr
  | _, acc, [] => if acc = [] then [] else [acc]
  | st, acc, c :: rest =>
    if (step st c).1 then
      if acc = [] then fieldsFuncAux step (step st c).2 [] rest
      else acc :: fieldsFuncAux step (step st c).2 [] rest
    else fieldsFuncAux step (step st c).2 (acc ++ [c]) rest

/-- A stateless separator decision, as used with `isNotIdentChar`. -/
def pureStep (f : Char → Bool) : Unit → Char → Bool × Unit := fun _ c => (f c, ())

/-- Go `strings.FieldsFunc` with a stateless separator function. -/
def fieldsFunc (f : Char → Bool) (s : GoStr) : List GoStr :=
  fieldsFuncAux (pureStep f) () [] s

/-- Runs the separator scan over a string; `some st` when no separator was
hit and the final state is `st`, `none` when some rune was a separator. -/
def scanNoSep {σ : Type} (step : σ → Char → Bool × σ) : σ → GoStr → Option σ
  | st, [] => some st
  | st, c :: rest =>
    if (step st c).1 then none else scanNoSep step (step st c).2 rest

/-- cli.go `parseUnquotedIdentifier`. -/
def parseUnquotedIdentifier (stmt : GoStr) : GoStr × GoStr :=
  match fieldsFunc isNotIdentChar stmt with
  | f :: _ => (f, trimPfx stmt f)
  | [] => ([], stmt)

/-- The stateful separator decision inside cli.go `parseDoubleQuotedIdentifier`:
`\` arms `escapeNext`; `"` is a separator only when `escapeNext` is unset,
otherwise it consumes the escape; other runes leave the flag untouched. -/
def dqStep (esc : Bool) (c : Char) : Bool × Bool :=
  if c == '\\' then (false, true)
  else if c == '"' then (if esc then (false, false) else (true, esc))
  else (false, esc)

/-- cli.go `parseDoubleQuotedIdentifier`. -/
def parseDoubleQuotedIdentifier (stmt : GoStr) : GoStr × GoStr :=
  match fieldsFuncAux dqStep false [] stmt with
  | f :: _ => (f, trimPfx stmt ('"' :: (f ++ ['"'])))
  | [] => ([], stmt)

/-- cli.go `parseNextIdentifier`. -/
def parseNextIdentifier : GoStr → GoStr × GoStr
  | [] => ([], [])
  | c :: rest =>
    if isWhitespace c then parseNextIdentifier rest
    else if isIdentFirstChar c then parseUnquotedIdentifier (c :: rest)
    else if c == '"' then parseDoubleQuotedIdentifier (c :: rest)
    else ([], c :: rest)

/-- The CommandLine session fields read by the INSERT classifier, the scope
rewriter and the renderer: current database, current retention policy,
`ClientConfig.Precision` and `ClientConfig.WriteConsistency`. -/
structure Session where
  Database : GoStr
  RetentionPolicy : GoStr
  Precision : GoStr
  WriteConsistency : GoStr
deriving DecidableEq, Repr

/-- client.BatchPoints as built by the classifier: a single raw point plus
target database, retention policy, precision and write consistency. -/
structure BatchPoints where
  Points : List GoStr
  Database : GoStr
  RetentionPolicy : GoStr
  Precision : GoStr
  WriteConsistency : GoStr
deriving DecidableEq, Repr

/-- cli.go `parseInto`: parse `[db[.rp]] <point-text>` after INTO. -/
def parseInto (c : Session) (stmt : GoStr) : BatchPoints :=
  let p := parseNextIdentifier stmt
  let ident := p.1
  let stmt1 := p.2
  let db := c.Database
  let rp := c.RetentionPolicy
  let step2 : GoStr × GoStr × GoStr :=
    if isPfxOf ['.'] stmt1 then
      (ident, (parseNextIdentifier (stmt1.drop 1)).1,
        (parseNextIdentifier (stmt1.drop 1)).2)
    else (db, ident, stmt1)
  let db2 := step2.1
  let ident2 := step2.2.1
  let stmt2 := step2.2.2
  let step3 : GoStr × GoStr :=
    if isPfxOf [' '] stmt2 then (ident2, stmt2.drop 1) else (rp, stmt2)
  { Points := [step3.2]
    Database := db2
    RetentionPolicy := step3.1
    Precision := c.Precision
    WriteConsistency := c.WriteConsistency }

/-- cli.go `parseInsert`: the first identifier must fold-equal INSERT; a
following INTO routes to `parseInto`, otherwise the remainder after the
INSERT identifier is the point text and the session scope is used. -/
def parseInsert (c : Session) (stmt : GoStr) : Except GoStr BatchPoints :=
  let p := parseNextIdentifier stmt
  let i := p.1
  let point := p.2
  if asciiEqualFold i (("insert").data) = false then
    .error ((("found ").data) ++ i ++ ((", expected INSERT").data))
  else
    let q := parseNextIdentifier point
    if asciiEqualFold q.1 (("into").data) then .ok (parseInto c q.2)
    else
      .ok { Points := [point]
            Database := c.Database
            RetentionPolicy := c.RetentionPolicy
            Precision := c.Precision
            WriteConsistency := c.WriteConsistency }

/-- influxql.Measurement: the fields touched by the rewrite in ExecuteQuery. -/
structure Measurement where
  Database : GoStr
  RetentionPolicy : GoStr
  Name : GoStr
deriving DecidableEq, Repr

/-- A source node of a SELECT statement: a measurement reference or any
other node kind, which the type switch of the rewrite leaves untouched. -/
inductive Source where
  | measurement (m : Measurement)
  | other
deriving DecidableEq, Repr

/-- influxql.SelectStatement, reduced to its walked `Sources`. -/
structure SelectStatement where
  Sources : List Source
deriving DecidableEq, Repr

/-- A parsed influxql statement: SELECT-shaped or anything else. -/
inductive Statement where
  | select (s : SelectStatement)
  | other
deriving DecidableEq, Repr

/-- The body of the WalkFunc in ExecuteQuery: fill an empty Database when
the session database is non-empty, and fill an empty RetentionPolicy when
the session retention policy is non-empty; never override non-empty fields. -/
def rewriteMeasurement (db rp : GoStr) (m : Measurement) : Measurement :=
  { m with
    Database := if m.Database = [] ∧ db ≠ [] then db else m.Database
    RetentionPolicy :=
      if m.RetentionPolicy = [] ∧ rp ≠ [] then rp else m.RetentionPolicy }

/-- The rewrite applied to one source node (non-measurement nodes pass). -/
def rewriteSource (db rp : GoStr) : Source → Source
  | .measurement m => .measurement (rewriteMeasurement db rp m)
  | .other => .other

/-- The rewrite applied to one statement (only SELECT statements walked). -/
def rewriteStatement (db rp : GoStr) : Statement → Statement
  | .select s => .select ⟨s.Sources.map (rewriteSource db rp)⟩
  | .other => .other

/-- The source-rewriting pass of ExecuteQuery, gated on a non-empty session
retention policy (cli.go lines 783-805). -/
def executeQueryRewrite (c : Session) (stmts : List Statement) : List Statement :=
  if c.RetentionPolicy ≠ [] then
    stmts.map (rewriteStatement c.Database c.RetentionPolicy)
  else stmts

/-- context.Context errors: `context.Canceled` or `context.DeadlineExceeded`
(`ctx.Err()` returning nil is modelled by `Option.none` at the use site). -/
inductive ContextErr where
  | canceled
  | deadlineExceeded
deriving DecidableEq, Repr

/-- The Go error strings of the two context errors. -/
def contextErrString : ContextErr → String
  | .canceled => "context canceled"
  | .deadlineExceeded => "context deadline exceeded"

/-- The error classification in ExecuteQuery (cli.go lines 826-838): an empty
transport error message is replaced by `ctx.Err()`; `context.Canceled`
becomes "aborted by user", a nil context error becomes "no data received";
a non-empty transport error is kept verbatim. -/
def classifyQueryError (errMsg : String) (ctxErr : Option ContextErr) : String :=
  if errMsg = "" then
    match ctxErr with
    | some ContextErr.canceled => "aborted by user"
    | some e => contextErrString e
    | none => "no data received"
  else errMsg

/-- A loosely-typed response value, as switched on by `interfaceToString`.
Floating-point values carry their Go `%v` rendering opaquely (no claim
depends on float formatting). -/
inductive GoValue where
  | null
  | bool (b : Bool)
  | int (n : Int)
  | float (rendered : String)
  | str (s : String)
deriving DecidableEq, Repr

/-- cli.go `interfaceToString`: nil prints empty, booleans and integers print
their decimal/natural text, everything else its natural text. -/
def interfaceToString : GoValue → String
  | .null => ""
  | .bool b => toString b
  | .int n => toString n
  | .float rendered => rendered
  | .str s => s

/-- models.Row. `Tags` and `Columns` are `none` for Go `nil` map/slice, so
that the nil versus empty distinction of `reflect.DeepEqual` is preserved; tag
maps are carried as key-sorted association lists with distinct keys, making
list equality coincide with Go map equality. -/
structure Row where
  Name : String
  Tags : Option (List (String × String))
  Columns : Option (List String)
  Values : List (List GoValue)
deriving DecidableEq, Repr

/-- A Result-level informational message. -/
structure Message where
  Level : String
  Text : String
deriving DecidableEq, Repr

/-- client.Result: ordered series plus informational messages. -/
structure Result where
  Series : List Row
  Messages : List Message
deriving DecidableEq, Repr

/-- cli.go `tagsEqual`: `reflect.DeepEqual` on the two tag maps. -/
def tagsEqual (prev current : Option (List (String × String))) : Bool :=
  prev == current

/-- cli.go `columnsEqual`: `reflect.DeepEqual` on the two column slices. -/
def columnsEqual (prev current : Option (List String)) : Bool :=
  prev == current

/-- cli.go `headersEqual`: names equal, then tags and columns deep-equal. -/
def headersEqual (prev current : Row) : Bool :=
  if prev.Name ≠ current.Name then false
  else tagsEqual prev.Tags current.Tags && columnsEqual prev.Columns current.Columns

/-- The zero models.Row used as the initial `previousHeaders` value:
empty name, nil tag map, nil column slice, nil values. -/
def zeroRow : Row := { Name := "", Tags := none, Columns := none, Values := [] }

/-- Insert a string into an ascending list (one step of the model of
`sort.Strings`). -/
def insertSorted (s : String) : List String → List String
  | [] => [s]
  | t :: ts => if s ≤ t then s :: t :: ts else t :: insertSorted s ts

/-- Models `sort.Strings`: ascending insertion sort. -/
def sortStrings (l : List String) : List String := l.foldr insertSorted []

/-- The `tags` list gathered per row in `formatResults`: every `key=value`
pair rendered and sorted lexicographically (the loop re-sorts after each
append; the net effect is the sorted list of all pairs). -/
def rowTags (row : Row) : List String :=
  sortStrings ((row.Tags.getD []).map (fun kv => kv.1 ++ "=" ++ kv.2))

/-- The per-series body of cli.go `formatResults`, for the series at index
`i` of the result. `fmt` is the output format string of the session. -/
def formatRow (fmt separator : String) (suppressHeaders : Bool) (i : Nat)
    (row : Row) : List String :=
  let tags := rowTags row
  let columnNames :=
    (if fmt = "csv" then
      (if row.Name ≠ "" then ["name"] else [])
        ++ (if tags ≠ [] then ["tags"] else [])
    else []) ++ row.Columns.getD []
  (if 0 < i ∧ fmt = "column" ∧ ¬suppressHeaders then [""] else [])
    ++ (if fmt = "column" ∧ ¬suppressHeaders then
          (if row.Name ≠ "" then ["name: " ++ row.Name] else [])
            ++ (if tags ≠ [] then
                  ["tags: " ++ String.intercalate ", " tags] else [])
        else [])
    ++ (if ¬suppressHeaders then [String.intercalate separator columnNames] else [])
    ++ (if fmt = "column" ∧ ¬suppressHeaders then
          [String.intercalate separator
            (columnNames.map (fun n => String.mk (List.replicate n.length '-')))]
        else [])
    ++ row.Values.map (fun v =>
        String.intercalate separator
          ((if fmt = "csv" then
              (if row.Name ≠ "" then [row.Name] else [])
                ++ (if tags ≠ [] then [String.intercalate "," tags] else [])
            else []) ++ v.map interfaceToString))

/-- The series loop of cli.go `formatResults`, threading the series index. -/
def formatResultsAux (fmt separator : String) (suppressHeaders : Bool) :
    Nat → List Row → List String
  | _, [] => []
  | i, row :: rest =>
    formatRow fmt separator suppressHeaders i row
      ++ formatResultsAux fmt separator suppressHeaders (i + 1) rest

/-- cli.go `formatResults`: the emitted lines for one result. -/
def formatResults (fmt separator : String) (suppressHeaders : Bool)
    (result : Result) : List String :=
  formatResultsAux fmt separator suppressHeaders 0 result.Series

/-- The header copy taken when the headers of a result are not suppressed:
only Name, Tags, Columns are kept (Values stays the zero value). -/
def headerOf (row : Row) : Row :=
  { Name := row.Name, Tags := row.Tags, Columns := row.Columns, Values := [] }

/-- The result loop of cli.go `writeColumns`, producing the lines pushed
through the tab writer. `prev` is `previousHeaders`, `i` the result index.
Messages are written directly to the underlying writer (see
`writeColumnsMessages`), not through the tab writer, so they are modelled
as a separate stream. -/
def writeColumnsAux (prev : Row) (i : Nat) : List Result → List String
  | [] => []
  | result :: rest =>
    let suppress :=
      !result.Series.isEmpty && headersEqual prev (result.Series.headD zeroRow)
    let prev' :=
      if !suppress && !result.Series.isEmpty then
        headerOf (result.Series.headD zeroRow)
      else prev
    (if !suppress && 0 < i then [""] else [])
      ++ formatResults "column" "\t" suppress result
      ++ writeColumnsAux prev' (i + 1) rest

/-- cli.go `writeColumns`: the tab-writer line stream for a response. -/
def writeColumnsRows (results : List Result) : List String :=
  writeColumnsAux zeroRow 0 results

/-- The message lines of `writeColumns`: `<level>: <text>.` per message,
written straight to the output writer as each result is visited. -/
def writeColumnsMessages (results : List Result) : List String :=
  (results.map (fun r => r.Messages.map
    (fun m => m.Level ++ ": " ++ m.Text ++ "."))).flatten

/-- Go `strings.Split(r, "\t")`, as used by `writeCSV` on each row. -/
def splitTab (s : String) : List String := s.splitOn "\t"

/-- The result loop of cli.go `writeCSV`, producing the records handed to
the csv writer. -/
def writeCSVAux (prev : Row) : List Result → List (List String)
  | [] => []
  | result :: rest =>
    let suppress :=
      !result.Series.isEmpty && headersEqual prev (result.Series.headD zeroRow)
    let prev' :=
      if !suppress && !result.Series.isEmpty then
        headerOf (result.Series.headD zeroRow)
      else prev
    (formatResults "csv" "\t" suppress result).map splitTab
      ++ writeCSVAux prev' rest

/-- cli.go `writeCSV`: the csv records for a response. -/
def writeCSVRecords (results : List Result) : List (List String) :=
  writeCSVAux zeroRow results

/-- The value lines of a result in column format: one line per value row of
each series, the values tab-joined, with no name or tags columns. -/
def columnValueLines (result : Result) : List String :=
  (result.Series.map (fun row =>
    row.Values.map (fun v =>
      String.intercalate "\t" (v.map interfaceToString)))).flatten

/-- The header columns of one series as emitted in CSV format. -/
def csvColumnNames (row : Row) : List String :=
  (if row.Name ≠ "" then ["name"] else [])
    ++ (if rowTags row ≠ [] then ["tags"] else [])
    ++ row.Columns.getD []

/-- The CSV header row for one series. -/
def csvHeaderLine (sep : String) (row : Row) : String :=
  String.intercalate sep (csvColumnNames row)

/-- A CSV value row for one series: the name and the comma-joined tags are
prepended exactly when non-empty. -/
def csvValueLine (sep : String) (row : Row) (v : List GoValue) : String :=
  String.intercalate sep
    ((if row.Name ≠ "" then [row.Name] else [])
      ++ (if rowTags row ≠ [] then [String.intercalate "," (rowTags row)] else [])
      ++ v.map interfaceToString)

theorem suffixOf_refl (s : GoStr) : SuffixOf s s := ⟨[], rfl⟩

theorem suffixOf_cons {r s : GoStr} (c : Char) (h : SuffixOf r s) :
    SuffixOf r (c :: s) := by
  obtain ⟨pre, hpre⟩ := h
  exact ⟨c :: pre, by simp [hpre]⟩

theorem trimPfx_suffix (s p : GoStr) : SuffixOf (trimPfx s p) s := by
  unfold trimPfx
  split
  · exact ⟨s.take p.length, (List.take_append_drop _ s).symm⟩
  · exact suffixOf_refl s

theorem parseUnquotedIdentifier_suffix (s : GoStr) :
    SuffixOf (parseUnquotedIdentifier s).2 s := by
  unfold parseUnquotedIdentifier
  rcases h : fieldsFunc isNotIdentChar s with _ | ⟨f, rest⟩
  · exact suffixOf_refl s
  · exact trimPfx_suffix s f

theorem parseDoubleQuotedIdentifier_suffix (s : GoStr) :
    SuffixOf (parseDoubleQuotedIdentifier s).2 s := by
  unfold parseDoubleQuotedIdentifier
  rcases h : fieldsFuncAux dqStep false [] s with _ | ⟨f, rest⟩
  · exact suffixOf_refl s
  · exact trimPfx_suffix s ('"' :: (f ++ ['"']))

theorem parseNextIdentifier_suffix (s : GoStr) :
    SuffixOf (parseNextIdentifier s).2 s := by
  induction s with
  | nil => exact suffixOf_refl []
  | cons c rest ih =>
    rw [parseNextIdentifier]
    by_cases hw : isWhitespace c = true
    · rw [if_pos hw]
      exact suffixOf_cons c ih
    · rw [if_neg hw]
      by_cases hf : isIdentFirstChar c = true
      · rw [if_pos hf]
        exact parseUnquotedIdentifier_suffix (c :: rest)
      · rw [if_neg hf]
        by_cases hq : (c == '"') = true
        · rw [if_pos hq]
          exact parseDoubleQuotedIdentifier_suffix (c :: rest)
        · rw [if_neg hq]
          exact suffixOf_refl (c :: rest)

/-- Claim C9: for every input string, the remainder returned by
`parseNextIdentifier` — through the unquoted path, the double-quoted path,
a failed match or an unterminated quoted identifier — is a suffix of the
input: parsing never fabricates characters. -/
theorem parse_remainder_suffix (s : GoStr) :
    SuffixOf (parseNextIdentifier s).2 s
      ∧ SuffixOf (parseUnquotedIdentifier s).2 s
      ∧ SuffixOf (parseDoubleQuotedIdentifier s).2 s :=
  ⟨parseNextIdentifier_suffix s, parseUnquotedIdentifier_suffix s,
    parseDoubleQuotedIdentifier_suffix s⟩

/-- Claim C8: leading whitespace (space, tab, newline) is transparent to
`parseNextIdentifier`: prefixing any all-whitespace string leaves the
(identifier, remainder) result unchanged. -/
theorem parseNextIdentifier_ws_invariant (ws s : GoStr)
    (h : ∀ c ∈ ws, isWhitespace c = true) :
    parseNextIdentifier (ws ++ s) = parseNextIdentifier s := by
  induction ws with
  | nil => rfl
  | cons c rest ih =>
    have hc : isWhitespace c = true := h c (by simp)
    have hrest : ∀ d ∈ rest, isWhitespace d = true := fun d hd => h d (by simp [hd])
    calc parseNextIdentifier ((c :: rest) ++ s)
        = parseNextIdentifier (rest ++ s) := by
          rw [List.cons_append, parseNextIdentifier, if_pos hc]
      _ = parseNextIdentifier s := ih hrest

/-- Closed witness for `parseNextIdentifier_ws_invariant`. -/
theorem parseNextIdentifier_ws_invariant_witness :
    parseNextIdentifier (((" \t\n").data) ++ (("use db1").data))
      = parseNextIdentifier (("use db1").data) :=
  parseNextIdentifier_ws_invariant ((" \t\n").data) (("use db1").data)
    (by decide)

theorem isPfxOf_append_self (p r : GoStr) : isPfxOf p (p ++ r) = true := by
  induction p with
  | nil => rfl
  | cons a as ih => simp [isPfxOf, ih]

theorem trimPfx_append (p r : GoStr) : trimPfx (p ++ r) p = r := by
  unfold trimPfx
  rw [if_pos (isPfxOf_append_self p r), List.drop_left]

theorem fieldsFuncAux_sep_nil {σ : Type} (step : σ → Char → Bool × σ) (st : σ)
    (c : Char) (l : GoStr) (h : (step st c).1 = true) :
    fieldsFuncAux step st [] (c :: l) = fieldsFuncAux step (step st c).2 [] l := by
  simp [fieldsFuncAux, h]

theorem fieldsFuncAux_sep_cons {σ : Type} (step : σ → Char → Bool × σ) (st : σ)
    (c : Char) (acc l : GoStr) (h : (step st c).1 = true) (ha : acc ≠ []) :
    fieldsFuncAux step st acc (c :: l)
      = acc :: fieldsFuncAux step (step st c).2 [] l := by
  simp [fieldsFuncAux, h, ha]

theorem fieldsFuncAux_append {σ : Type} (step : σ → Char → Bool × σ) :
    ∀ (t l : GoStr) (st st' : σ) (acc : GoStr),
      scanNoSep step st t = some st' →
      fieldsFuncAux step st acc (t ++ l) = fieldsFuncAux step st' (acc ++ t) l := by
  intro t
  induction t with
  | nil =>
    intro l st st' acc h
    simp [scanNoSep] at h
    subst h
    simp
  | cons c t' ih =>
    intro l st st' acc h
    simp only [scanNoSep] at h
    by_cases hsep : (step st c).1 = true
    · rw [if_pos hsep] at h
      exact absurd h (by simp)
    · rw [if_neg hsep] at h
      calc fieldsFuncAux step st acc ((c :: t') ++ l)
          = fieldsFuncAux step (step st c).2 (acc ++ [c]) (t' ++ l) := by
            simp only [List.cons_append, fieldsFuncAux, if_neg hsep]
            rfl
        _ = fieldsFuncAux step st' ((acc ++ [c]) ++ t') l := ih l _ st' (acc ++ [c]) h
        _ = fieldsFuncAux step st' (acc ++ (c :: t')) l := by
            rw [List.append_assoc]
            rfl

/-- Claim C5 counterexample: the parity rule of the claim says a quote preceded
by an even number of backslashes terminates the identifier, so on input
`"a\\"b"` it predicts identifier `a\\` and remainder `b"`; the one-shot
escape flag of the code is still armed at that quote, so the scan runs on and
returns identifier `a\\"b` with empty remainder. -/
theorem quoted_ident_parity_cex :
    parseDoubleQuotedIdentifier (("\"a\\\\\"b\"").data)
        = ((("a\\\\\"b").data), ([] : GoStr))
      ∧ ¬ parseDoubleQuotedIdentifier (("\"a\\\\\"b\"").data)
            = ((("a\\\\").data), (("b\"").data)) := by
  constructor
  · rfl
  · decide

/-- Claim C5 (amended): for a quoted-identifier input `"t"rest` whose body
`t` is non-empty and scans cleanly — each `\` arms a one-shot escape, each
`"` inside `t` requires and consumes a pending escape (regardless of how
many characters or backslashes came between), and no escape is pending at
the closing quote — the lexer returns the body `t` with its escapes kept
(so `"a\"b"` yields `a\"b`) and the remainder begins immediately after
that closing quote. -/
theorem quoted_ident_escape_scan (t rest : GoStr) (hne : t ≠ [])
    (hscan : scanNoSep dqStep false t = some false) :
    parseDoubleQuotedIdentifier ('"' :: (t ++ ('"' :: rest))) = (t, rest) := by
  have hq2 : dqStep false '"' = (true, false) := by decide
  have hq : (dqStep false '"').1 = true := by rw [hq2]
  have e1 : fieldsFuncAux dqStep false [] ('"' :: (t ++ ('"' :: rest)))
      = t :: fieldsFuncAux dqStep false [] rest := by
    calc fieldsFuncAux dqStep false [] ('"' :: (t ++ ('"' :: rest)))
        = fieldsFuncAux dqStep (dqStep false '"').2 [] (t ++ ('"' :: rest)) :=
          fieldsFuncAux_sep_nil dqStep false '"' _ hq
      _ = fieldsFuncAux dqStep false [] (t ++ ('"' :: rest)) := by rw [hq2]
      _ = fieldsFuncAux dqStep false ([] ++ t) ('"' :: rest) :=
          fieldsFuncAux_append dqStep t _ false false [] hscan
      _ = t :: fieldsFuncAux dqStep (dqStep false '"').2 [] rest := by
          rw [List.nil_append]
          exact fieldsFuncAux_sep_cons dqStep false '"' t rest hq hne
      _ = t :: fieldsFuncAux dqStep false [] rest := by rw [hq2]
  unfold parseDoubleQuotedIdentifier
  rw [e1]
  show (t, trimPfx ('"' :: (t ++ ('"' :: rest))) ('"' :: (t ++ ['"']))) = (t, rest)
  have e2 : '"' :: (t ++ ('"' :: rest)) = ('"' :: (t ++ ['"'])) ++ rest := by
    simp
  rw [e2, trimPfx_append]

/-- Closed witness for `quoted_ident_escape_scan`: `"a\"b" rest` yields
identifier `a\"b` and remainder ` rest`. -/
theorem quoted_ident_escape_scan_witness :
    parseDoubleQuotedIdentifier ('"' :: ((("a\\\"b").data) ++ ('"' :: ((" rest").data))))
      = ((("a\\\"b").data), ((" rest").data)) :=
  quoted_ident_escape_scan (("a\\\"b").data) ((" rest").data) (by decide) (by decide)

theorem scanNoSep_pure (f : Char → Bool) (t : GoStr)
    (h : ∀ c ∈ t, f c = false) : scanNoSep (pureStep f) () t = some () := by
  induction t with
  | nil => rfl
  | cons c rest ih =>
    have hc : f c = false := h c (by simp)
    simp only [scanNoSep, pureStep, hc]
    exact ih (fun d hd => h d (by simp [hd]))

theorem parseUnquotedIdentifier_token (c0 : Char) (tl : GoStr) (d : Char)
    (rest : GoStr) (h1 : ∀ ch ∈ (c0 :: tl), isNotIdentChar ch = false)
    (hd : isNotIdentChar d = true) :
    parseUnquotedIdentifier ((c0 :: tl) ++ (d :: rest)) = (c0 :: tl, d :: rest) := by
  have hsep : (pureStep isNotIdentChar () d).1 = true := hd
  have e1 : fieldsFunc isNotIdentChar ((c0 :: tl) ++ (d :: rest))
      = (c0 :: tl) :: fieldsFunc isNotIdentChar rest := by
    unfold fieldsFunc
    calc fieldsFuncAux (pureStep isNotIdentChar) () [] ((c0 :: tl) ++ (d :: rest))
        = fieldsFuncAux (pureStep isNotIdentChar) () ([] ++ (c0 :: tl)) (d :: rest) :=
          fieldsFuncAux_append (pureStep isNotIdentChar) (c0 :: tl) _ () () []
            (scanNoSep_pure isNotIdentChar (c0 :: tl) h1)
      _ = (c0 :: tl) :: fieldsFuncAux (pureStep isNotIdentChar) () [] rest := by
          rw [List.nil_append]
          exact fieldsFuncAux_sep_cons (pureStep isNotIdentChar) () d (c0 :: tl)
            rest hsep (by simp)
  unfold parseUnquotedIdentifier
  rw [e1]
  show (c0 :: tl, trimPfx ((c0 :: tl) ++ (d :: rest)) (c0 :: tl)) = _
  rw [trimPfx_append]

theorem identFirst_not_ws (c : Char) (h : isIdentFirstChar c = true) :
    isWhitespace c = false := by
  cases hw : isWhitespace c
  · rfl
  · exfalso
    have : c = ' ' ∨ c = '\t' ∨ c = '\n' := by
      simpa [isWhitespace, or_assoc] using hw
    rcases this with h1 | h1 | h1 <;> subst h1 <;> exact absurd h (by decide)

theorem parseNextIdentifier_token (c0 : Char) (tl : GoStr) (d : Char)
    (rest : GoStr) (h0 : isIdentFirstChar c0 = true)
    (h1 : ∀ ch ∈ (c0 :: tl), isNotIdentChar ch = false)
    (hd : isNotIdentChar d = true) :
    parseNextIdentifier ((c0 :: tl) ++ (d :: rest)) = (c0 :: tl, d :: rest) := by
  have hws := identFirst_not_ws c0 h0
  calc parseNextIdentifier ((c0 :: tl) ++ (d :: rest))
      = parseNextIdentifier (c0 :: (tl ++ (d :: rest))) := rfl
    _ = parseUnquotedIdentifier (c0 :: (tl ++ (d :: rest))) := by
        rw [parseNextIdentifier, if_neg (by simp [hws]), if_pos h0]
    _ = (c0 :: tl, d :: rest) := parseUnquotedIdentifier_token c0 tl d rest h1 hd

/-- Claim C1 counterexample: for `INSERT INTO mydb cpu value=1` with session
database "d" and retention policy "r", the claim predicts target database
"mydb" and retention policy "r"; `parseInto` instead keeps the session
database "d" and makes the lone identifier the retention policy. -/
theorem insert_into_db_claim_cex :
    parseInsert ⟨("d").data, ("r").data, ("ns").data, ("all").data⟩
        (("INSERT INTO mydb cpu value=1").data)
      = .ok { Points := [(("cpu value=1").data)], Database := ("d").data,
              RetentionPolicy := ("mydb").data, Precision := ("ns").data,
              WriteConsistency := ("all").data }
    ∧ ("d").data ≠ ("mydb").data ∧ ("mydb").data ≠ ("r").data :=
  ⟨rfl, by decide, by decide⟩

/-- Claim C1 (amended): for every statement `INSERT INTO <ident> <point>`
where the identifier is not immediately followed by `.`, the produced
target keeps the current Session database, its RETENTION POLICY is that
identifier, and the point text follows the single separating space. -/
theorem insert_into_single_ident_rp (sess : Session) (c0 : Char) (tl pt : GoStr)
    (h0 : isIdentFirstChar c0 = true)
    (h1 : ∀ ch ∈ (c0 :: tl), isNotIdentChar ch = false) :
    parseInsert sess ((("INSERT INTO ").data) ++ ((c0 :: tl) ++ (' ' :: pt)))
      = .ok { Points := [pt], Database := sess.Database,
              RetentionPolicy := c0 :: tl, Precision := sess.Precision,
              WriteConsistency := sess.WriteConsistency } := by
  have eTok : parseNextIdentifier ((c0 :: tl) ++ (' ' :: pt)) = (c0 :: tl, ' ' :: pt) :=
    parseNextIdentifier_token c0 tl ' ' pt h0 h1 (by decide)
  have e1 : parseNextIdentifier ((("INSERT INTO ").data) ++ ((c0 :: tl) ++ (' ' :: pt)))
      = ((("INSERT").data), ' ' :: ((("INTO ").data) ++ ((c0 :: tl) ++ (' ' :: pt)))) :=
    parseNextIdentifier_token 'I' (("NSERT").data) ' '
      ((("INTO ").data) ++ ((c0 :: tl) ++ (' ' :: pt)))
      (by decide) (by decide) (by decide)
  have e2 : parseNextIdentifier (' ' :: ((("INTO ").data) ++ ((c0 :: tl) ++ (' ' :: pt))))
      = ((("INTO").data), ' ' :: ((c0 :: tl) ++ (' ' :: pt))) := by
    have ew : parseNextIdentifier (([' ']) ++ ((("INTO ").data) ++ ((c0 :: tl) ++ (' ' :: pt))))
        = parseNextIdentifier ((("INTO ").data) ++ ((c0 :: tl) ++ (' ' :: pt))) :=
      parseNextIdentifier_ws_invariant ([' ']) _ (by decide)
    have et : parseNextIdentifier ((("INTO ").data) ++ ((c0 :: tl) ++ (' ' :: pt)))
        = ((("INTO").data), ' ' :: ((c0 :: tl) ++ (' ' :: pt))) :=
      parseNextIdentifier_token 'I' (("NTO").data) ' '
        ((c0 :: tl) ++ (' ' :: pt)) (by decide) (by decide) (by decide)
    exact ew.trans et
  have e3 : parseNextIdentifier (' ' :: ((c0 :: tl) ++ (' ' :: pt)))
      = (c0 :: tl, ' ' :: pt) := by
    have ew : parseNextIdentifier (([' ']) ++ ((c0 :: tl) ++ (' ' :: pt)))
        = parseNextIdentifier ((c0 :: tl) ++ (' ' :: pt)) :=
      parseNextIdentifier_ws_invariant ([' ']) _ (by decide)
    exact ew.trans eTok
  have hfold1 : asciiEqualFold (("INSERT").data) (("insert").data) = true := by decide
  have hfold2 : asciiEqualFold (("INTO").data) (("into").data) = true := by decide
  have hdot : isPfxOf (['.']) (' ' :: pt) = false := rfl
  have hspace : isPfxOf ([' ']) (' ' :: pt) = true := rfl
  simp at e1 e2 e3 hfold1 hfold2
  simp [parseInsert, parseInto, e1, e2, e3, hfold1, hfold2, hdot, hspace]

/-- Closed witness for `insert_into_single_ident_rp`. -/
theorem insert_into_single_ident_rp_witness :
    parseInsert ⟨("d").data, ("r").data, ("ns").data, ("all").data⟩
        ((("INSERT INTO ").data) ++ (('m' :: (("ydb").data)) ++ (' ' :: (("cpu value=1").data))))
      = .ok { Points := [(("cpu value=1").data)], Database := ("d").data,
              RetentionPolicy := 'm' :: (("ydb").data), Precision := ("ns").data,
              WriteConsistency := ("all").data } :=
  insert_into_single_ident_rp ⟨("d").data, ("r").data, ("ns").data, ("all").data⟩
    'm' (("ydb").data) (("cpu value=1").data) (by decide) (by decide)

/-- Claim C6 counterexample: `parseInsert("insert cpu value=1")` with
session database "d" and retention policy "r" produces the point text
" cpu value=1" — the verbatim remainder after the INSERT identifier keeps
its leading space — not the "cpu value=1" of the claim. -/
theorem insert_no_into_point_cex :
    parseInsert ⟨("d").data, ("r").data, ("ns").data, ("all").data⟩
        (("insert cpu value=1").data)
      = .ok { Points := [((" cpu value=1").data)], Database := ("d").data,
              RetentionPolicy := ("r").data, Precision := ("ns").data,
              WriteConsistency := ("all").data }
    ∧ ((" cpu value=1").data) ≠ (("cpu value=1").data) :=
  ⟨rfl, by decide⟩

/-- Claim C6 (amended): for every statement whose first identifier
case-insensitively equals INSERT and whose next identifier is not INTO,
parseInsert succeeds with the Session database, retention policy,
precision and write consistency, and the point text is the verbatim
remainder after the INSERT identifier — including the separating
whitespace character. -/
theorem insert_no_into_defaults (sess : Session) (c0 : Char) (tl : GoStr)
    (d : Char) (rest : GoStr)
    (h0 : isIdentFirstChar c0 = true)
    (h1 : ∀ ch ∈ (c0 :: tl), isNotIdentChar ch = false)
    (hd : isNotIdentChar d = true)
    (hfold : asciiEqualFold (c0 :: tl) (("insert").data) = true)
    (hni : asciiEqualFold (parseNextIdentifier (d :: rest)).1 (("into").data) = false) :
    parseInsert sess ((c0 :: tl) ++ (d :: rest))
      = .ok { Points := [d :: rest], Database := sess.Database,
              RetentionPolicy := sess.RetentionPolicy,
              Precision := sess.Precision,
              WriteConsistency := sess.WriteConsistency } := by
  have eTok := parseNextIdentifier_token c0 tl d rest h0 h1 hd
  simp at eTok hfold hni
  simp [parseInsert, eTok, hfold, hni]

/-- Closed witness for `insert_no_into_defaults`: `insert cpu value=1`
with session {d, r} yields point " cpu value=1" under the session scope. -/
theorem insert_no_into_defaults_witness :
    parseInsert ⟨("d").data, ("r").data, ("ns").data, ("all").data⟩
        (('i' :: (("nsert").data)) ++ (' ' :: (("cpu value=1").data)))
      = .ok { Points := [' ' :: (("cpu value=1").data)], Database := ("d").data,
              RetentionPolicy := ("r").data, Precision := ("ns").data,
              WriteConsistency := ("all").data } :=
  insert_no_into_defaults ⟨("d").data, ("r").data, ("ns").data, ("all").data⟩
    'i' (("nsert").data) ' ' (("cpu value=1").data)
    (by decide) (by decide) (by decide) (by decide) (by decide)

/-- Claim C3: with a non-empty session retention policy, the rewrite maps
every statement (measurements inside SELECT sources through
`rewriteMeasurement`), and each measurement gets: an empty database filled
with the session database when that is non-empty (left empty otherwise), an
empty retention policy filled with the session retention policy, and every
already non-empty field — and the name — left unchanged. -/
theorem executeQuery_scope_rewrite (c : Session) (stmts : List Statement)
    (h : c.RetentionPolicy ≠ []) :
    executeQueryRewrite c stmts
        = stmts.map (rewriteStatement c.Database c.RetentionPolicy)
      ∧ ∀ m : Measurement,
        (rewriteMeasurement c.Database c.RetentionPolicy m).Name = m.Name
        ∧ (m.Database = [] → c.Database ≠ [] →
            (rewriteMeasurement c.Database c.RetentionPolicy m).Database = c.Database)
        ∧ (m.Database = [] → c.Database = [] →
            (rewriteMeasurement c.Database c.RetentionPolicy m).Database = [])
        ∧ (m.Database ≠ [] →
            (rewriteMeasurement c.Database c.RetentionPolicy m).Database = m.Database)
        ∧ (m.RetentionPolicy = [] →
            (rewriteMeasurement c.Database c.RetentionPolicy m).RetentionPolicy
              = c.RetentionPolicy)
        ∧ (m.RetentionPolicy ≠ [] →
            (rewriteMeasurement c.Database c.RetentionPolicy m).RetentionPolicy
              = m.RetentionPolicy) := by
  refine ⟨by simp [executeQueryRewrite, h], fun m => ⟨rfl, ?_, ?_, ?_, ?_, ?_⟩⟩
  · intro h1 h2
    simp [rewriteMeasurement, h1, h2]
  · intro h1 h2
    simp [rewriteMeasurement, h1, h2]
  · intro h1
    simp [rewriteMeasurement, h1]
  · intro h1
    simp [rewriteMeasurement, h1, h]
  · intro h1
    simp [rewriteMeasurement, h1]

/-- Closed witness for `executeQuery_scope_rewrite`: with session database
"d" and retention policy "rp1", `SELECT ... FROM cpu` has its unqualified
measurement filled in, and a fully qualified measurement is untouched. -/
theorem executeQuery_scope_rewrite_witness :
    executeQueryRewrite ⟨("d").data, ("rp1").data, [], []⟩
        [Statement.select ⟨[Source.measurement ⟨[], [], ("cpu").data⟩,
          Source.measurement ⟨("other").data, ("keep").data, ("mem").data⟩]⟩,
          Statement.other]
      = [Statement.select ⟨[Source.measurement
            ⟨("d").data, ("rp1").data, ("cpu").data⟩,
          Source.measurement ⟨("other").data, ("keep").data, ("mem").data⟩]⟩,
          Statement.other] := by
  rw [(executeQuery_scope_rewrite ⟨("d").data, ("rp1").data, [], []⟩
    [Statement.select ⟨[Source.measurement ⟨[], [], ("cpu").data⟩,
      Source.measurement ⟨("other").data, ("keep").data, ("mem").data⟩]⟩,
      Statement.other] (by decide)).1]
  rfl

/-- Claim C4: the error classification of ExecuteQuery — an empty transport
error with a cancelled context reports "aborted by user", an empty
transport error with no context error reports "no data received", and a
non-empty transport error is surfaced as-is. -/
theorem executeQuery_error_classification (e : String) (ctx : Option ContextErr) :
    classifyQueryError "" (some ContextErr.canceled) = "aborted by user"
      ∧ classifyQueryError "" none = "no data received"
      ∧ (e ≠ "" → classifyQueryError e ctx = e) := by
  refine ⟨rfl, rfl, fun h => ?_⟩
  unfold classifyQueryError
  rw [if_neg h]

/-- Closed witness for `executeQuery_error_classification`. -/
theorem executeQuery_error_classification_witness :
    classifyQueryError "connection refused" (some ContextErr.canceled)
      = "connection refused" :=
  (executeQuery_error_classification "connection refused"
    (some ContextErr.canceled)).2.2 (by decide)

theorem formatRow_column_suppressed (sep : String) (i : Nat) (row : Row) :
    formatRow "column" sep true i row
      = row.Values.map (fun v => String.intercalate sep (v.map interfaceToString)) := by
  have hc : ¬ (("column" : String) = "csv") := by decide
  simp [formatRow, hc]

theorem formatResultsAux_column_suppressed (sep : String) :
    ∀ (rows : List Row) (i : Nat),
      formatResultsAux "column" sep true i rows
        = (rows.map (fun row => row.Values.map
            (fun v => String.intercalate sep (v.map interfaceToString)))).flatten := by
  intro rows
  induction rows with
  | nil => intro i; rfl
  | cons r rs ih =>
    intro i
    simp [formatResultsAux, formatRow_column_suppressed, ih]

theorem formatResults_column_suppressed (result : Result) :
    formatResults "column" "\t" true result = columnValueLines result := by
  unfold formatResults columnValueLines
  exact formatResultsAux_column_suppressed "\t" result.Series 0

/-- Claim C2: in column format, a result whose first series header equals
the carried previous header has all its name/tags/column-header/dash lines
suppressed — only its value rows are emitted, with no blank line even when
it is not the first result, and the previous header is left unchanged;
when the header differs, the full header block is emitted and a single
blank separator line precedes it exactly when the result is not the first. -/
theorem writeColumns_header_suppression (prev : Row) (i : Nat) (result : Result)
    (rest : List Result) (row : Row) (tl : List Row)
    (hs : result.Series = row :: tl) :
    (headersEqual prev row = true →
       writeColumnsAux prev i (result :: rest)
         = columnValueLines result ++ writeColumnsAux prev (i + 1) rest)
    ∧ (headersEqual prev row = false → 0 < i →
       writeColumnsAux prev i (result :: rest)
         = "" :: (formatResults "column" "\t" false result
             ++ writeColumnsAux (headerOf row) (i + 1) rest))
    ∧ (headersEqual prev row = false → i = 0 →
       writeColumnsAux prev i (result :: rest)
         = formatResults "column" "\t" false result
             ++ writeColumnsAux (headerOf row) (i + 1) rest) := by
  refine ⟨fun he => ?_, fun he hi => ?_, fun he hi => ?_⟩
  · simp [writeColumnsAux, hs, he, formatResults_column_suppressed]
  · simp [writeColumnsAux, hs, he, hi]
  · subst hi
    simp [writeColumnsAux, hs, he]

/-- Closed witness for `writeColumns_header_suppression`: two results with
the identical header (name "cpu", no tags, columns [time, value]); the
lines of the second result are its value rows only, with no blank separator. -/
theorem writeColumns_header_suppression_witness :
    writeColumnsAux (headerOf ⟨"cpu", none, some ["time", "value"], []⟩) 1
        [⟨[⟨"cpu", none, some ["time", "value"],
            [[GoValue.int 2, GoValue.int 20]]⟩], []⟩]
      = ["2\t20"] := by
  have h := (writeColumns_header_suppression
    (headerOf ⟨"cpu", none, some ["time", "value"], []⟩) 1
    ⟨[⟨"cpu", none, some ["time", "value"], [[GoValue.int 2, GoValue.int 20]]⟩], []⟩
    [] ⟨"cpu", none, some ["time", "value"], [[GoValue.int 2, GoValue.int 20]]⟩
    [] rfl).1 (by decide)
  rw [h]
  rfl

theorem formatRow_csv_unsuppressed (sep : String) (i : Nat) (row : Row) :
    formatRow "csv" sep false i row
      = csvHeaderLine sep row :: row.Values.map (csvValueLine sep row) := by
  have hc : ¬ (("csv" : String) = "column") := by decide
  simp [formatRow, hc, csvHeaderLine, csvValueLine, csvColumnNames, rowTags]

theorem formatResultsAux_csv_unsuppressed (sep : String) :
    ∀ (rows : List Row) (i : Nat),
      formatResultsAux "csv" sep false i rows
        = (rows.map (fun row =>
            csvHeaderLine sep row :: row.Values.map (csvValueLine sep row))).flatten := by
  intro rows
  induction rows with
  | nil => intro i; rfl
  | cons r rs ih =>
    intro i
    simp [formatResultsAux, formatRow_csv_unsuppressed, ih]

/-- Claim C7: with headers not suppressed, CSV output has, per series, a
header row whose columns are `name` exactly when the series name is
non-empty and `tags` exactly when it has tags, followed by the series
columns, and value rows prepending the name and the comma-joined tags
under the same conditions; column format emits its column-header line and
its value lines from the series columns and values alone — never a name
or tags column. -/
theorem formatResults_name_tags_columns (sep : String) (result : Result) :
    formatResults "csv" sep false result
        = (result.Series.map (fun row =>
            csvHeaderLine sep row :: row.Values.map (csvValueLine sep row))).flatten
      ∧ ∀ i row, formatRow "column" sep false i row
          = (if 0 < i then [""] else [])
            ++ (if row.Name ≠ "" then ["name: " ++ row.Name] else [])
            ++ (if rowTags row ≠ [] then
                  ["tags: " ++ String.intercalate ", " (rowTags row)] else [])
            ++ [String.intercalate sep (row.Columns.getD [])]
            ++ [String.intercalate sep ((row.Columns.getD []).map
                  (fun n => String.mk (List.replicate n.length '-')))]
            ++ row.Values.map (fun v =>
                String.intercalate sep (v.map interfaceToString)) := by
  constructor
  · exact formatResultsAux_csv_unsuppressed sep result.Series 0
  · intro i row
    have hc : ¬ (("column" : String) = "csv") := by decide
    simp [formatRow, hc, rowTags]

/-- Claim C10: a first result whose first series has empty name, nil tag
map and nil column slice compares equal to the zero-valued initial
previous header, so both the column and the CSV renderers suppress its
header lines even though nothing has been rendered yet. -/
theorem zero_header_first_result_suppressed (vals : List (List GoValue))
    (tl : List Row) (msgs : List Message) (rest : List Result) :
    headersEqual zeroRow ⟨"", none, none, vals⟩ = true
    ∧ writeColumnsRows (⟨⟨"", none, none, vals⟩ :: tl, msgs⟩ :: rest)
        = formatResults "column" "\t" true ⟨⟨"", none, none, vals⟩ :: tl, msgs⟩
          ++ writeColumnsAux zeroRow 1 rest
    ∧ writeCSVRecords (⟨⟨"", none, none, vals⟩ :: tl, msgs⟩ :: rest)
        = (formatResults "csv" "\t" true ⟨⟨"", none, none, vals⟩ :: tl, msgs⟩).map splitTab
          ++ writeCSVAux zeroRow rest := by
  refine ⟨rfl, ?_, ?_⟩
  · simp [writeColumnsRows, writeColumnsAux, zeroRow, headersEqual,
      tagsEqual, columnsEqual]
  · simp [writeCSVRecords, writeCSVAux, zeroRow, headersEqual,
      tagsEqual, columnsEqual]

end InfluxCli
